import Mathlib

/-
Verification of the shift-scheduler (`app.py`).

Shallow embedding: the constraint model that `ShiftScheduler.create_schedule`
hands to the CP-SAT solver is embedded as an explicit list of constraints
(`Constraint`) together with the objective terms (`ObjTerm`); the solver itself
is an external collaborator and is modelled as an oracle `Engine` returning an
optional variable assignment.  The failure diagnoser `_analyze_failure` is
embedded with Python's float division modelled as exact fraction division
(`PyFloat`) that fails (returns `none`) on a zero divisor, mirroring
`ZeroDivisionError`.
Python machine integers are unbounded, so `Int`/`Nat` are used directly.
-/

namespace ShiftSched

/-- Per-staff record: one entry of the `staff_info` dict
(`{'name': .., 'is_newbie': .., 'nakaban_only': ..}`). -/
structure StaffInfo where
  name : String
  is_newbie : Bool
  nakaban_only : Bool
deriving DecidableEq

/-- Whether a year is a leap year (Gregorian rule, as implemented by
`datetime` which `__init__` uses to compute the day count). -/
def isLeap (year : Nat) : Bool :=
  (year % 4 == 0 && year % 100 != 0) || year % 400 == 0

/-- Number of days of `month` in `year`, the value `__init__` stores in
`self.num_days` via `datetime` arithmetic. -/
def daysInMonth (year month : Nat) : Nat :=
  if month == 2 then (if isLeap year then 29 else 28)
  else if month == 4 || month == 6 || month == 9 || month == 11 then 30
  else 31

/-- The state of a `ShiftScheduler` instance: exactly the fields assigned in
`__init__`.  The per-staff dicts are modelled as total functions from staff id
(`dict.get` with its default); `preferred_shifts[s]` is a `day ↦ shift-label`
dict modelled as an association list.  `num_days` is the derived field; it is
kept as a field so the theorems quantify over it (see `Sched.ofCalendar`). -/
structure Sched where
  month : Nat
  year : Nat
  num_staff : Nat
  staff_info : Nat → StaffInfo
  requests_off : Nat → List Nat
  preferred_shifts : Nat → List (Nat × String)
  holidays : Nat → List Nat
  early_count : Int
  middle_count : Int
  late_count_min : Int
  late_count_max : Int
  balance_tolerance : Int
  num_days : Nat

/-- Constructor matching `__init__`: `num_days` is derived from the calendar. -/
def Sched.ofCalendar (month year : Nat) (num_staff : Nat) (staff_info : Nat → StaffInfo)
    (requests_off : Nat → List Nat) (preferred_shifts : Nat → List (Nat × String))
    (holidays : Nat → List Nat) (early_count middle_count late_count_min late_count_max : Int)
    (balance_tolerance : Int) : Sched :=
  ⟨month, year, num_staff, staff_info, requests_off, preferred_shifts, holidays,
   early_count, middle_count, late_count_min, late_count_max, balance_tolerance,
   daysInMonth year month⟩

/-- An assignment of the solver's boolean variables `shifts[(s, d, t)]`
(staff, day index 0-based, shift type 0=早番 1=中番 2=遅番 3=OFF). -/
abbrev Assignment := Nat → Nat → Nat → Bool

/-- The display labels `self.shifts = ['早番', '中番', '遅番', 'OFF']`. -/
def shiftsList : List String := ["早番", "中番", "遅番", "OFF"]

/-- The guarded index lookup `['早番', '中番', '遅番'].index(shift_type)` used at
lines 161-162 and 194-195: `some i` when the label is one of the three working
labels (the membership test), `none` otherwise. -/
def shiftIdx (st : String) : Option Nat :=
  if st == "早番" then some 0
  else if st == "中番" then some 1
  else if st == "遅番" then some 2
  else none

/-- One linear constraint added by a `model.Add(...)` call of
`create_schedule`.  Each constructor carries the data the corresponding
linear expression ranges over, so a constraint is meaningful on its own. -/
inductive Constraint where
  /-- `sum(shifts[(s, d, t)] for t in range(4)) == 1` -/
  | oneShift (s d : Nat)
  /-- `sum_s shifts[(s, d, 0)] == c` over `s < numStaff` -/
  | earlyExact (numStaff d : Nat) (c : Int)
  /-- `sum_s shifts[(s, d, 1)] == c` -/
  | middleExact (numStaff d : Nat) (c : Int)
  /-- `sum_s shifts[(s, d, 2)] >= c` -/
  | lateAtLeast (numStaff d : Nat) (c : Int)
  /-- `sum_s shifts[(s, d, 2)] <= c` -/
  | lateAtMost (numStaff d : Nat) (c : Int)
  /-- `shifts[(s, d, t)] == 0` -/
  | zeroVar (s d t : Nat)
  /-- `shifts[(s, d, t)] == 1` -/
  | forceVar (s d t : Nat)
  /-- `sum(shifts[(s, d+i, 3)] for i in range(w)) >= 1` -/
  | offWindow (s d w : Nat)
  /-- `shifts[(s, d, 2)] + shifts[(s, d+1, 0)] <= 1` -/
  | lateEarly (s d : Nat)
  /-- `sum(shifts[(s, d, t)] for s in group) <= 1` -/
  | newbieAtMostOne (d t : Nat) (group : List Nat)
  /-- `sum_d shifts[(s, d, 3)] == target` over `d < numDays` -/
  | offTotal (s numDays : Nat) (target : Int)
  /-- `early_count(s) - late_count(s) <= tol` over `d < numDays` -/
  | balanceEL (s numDays : Nat) (tol : Int)
  /-- `late_count(s) - early_count(s) <= tol` -/
  | balanceLE (s numDays : Nat) (tol : Int)
deriving DecidableEq

/-- Head-count of shift `t` on day `d` among staff `0..numStaff-1`. -/
def staffCount (x : Assignment) (numStaff d t : Nat) : Nat :=
  (List.range numStaff).countP (fun s => x s d t)

/-- Number of days (among `0..numDays-1`) on which staff `s` holds shift `t`. -/
def dayCount (x : Assignment) (s numDays t : Nat) : Nat :=
  (List.range numDays).countP (fun d => x s d t)

/-- Truth of one constraint under an assignment of the shift variables. -/
def Constraint.holds (x : Assignment) : Constraint → Bool
  | .oneShift s d => (List.range 4).countP (fun t => x s d t) == 1
  | .earlyExact ns d c => (staffCount x ns d 0 : Int) == c
  | .middleExact ns d c => (staffCount x ns d 1 : Int) == c
  | .lateAtLeast ns d c => decide (c ≤ (staffCount x ns d 2 : Int))
  | .lateAtMost ns d c => decide ((staffCount x ns d 2 : Int) ≤ c)
  | .zeroVar s d t => x s d t == false
  | .forceVar s d t => x s d t == true
  | .offWindow s d w => decide (1 ≤ (List.range w).countP (fun i => x s (d + i) 3))
  | .lateEarly s d => decide ((x s d 2).toNat + (x s (d + 1) 0).toNat ≤ 1)
  | .newbieAtMostOne d t g => decide (g.countP (fun s => x s d t) ≤ 1)
  | .offTotal s nd tgt => (dayCount x s nd 3 : Int) == tgt
  | .balanceEL s nd tol => decide ((dayCount x s nd 0 : Int) - (dayCount x s nd 2 : Int) ≤ tol)
  | .balanceLE s nd tol => decide ((dayCount x s nd 2 : Int) - (dayCount x s nd 0 : Int) ≤ tol)

/-- One term of the maximized objective (lines 198-210).  The per-day
late-head-count tier indicator variables (`is_three`, `is_two`,
`is_four_plus`) are tied if-and-only-if to their linear condition, hence
functionally determined by the shift variables; the corresponding objective
terms record the day they measure. -/
inductive ObjTerm where
  /-- `w * shifts[(s, d, t)]` (the weight-10 preference terms) -/
  | prefTerm (w : Int) (s d t : Nat)
  /-- `w * late_is_three_vars[d]` -/
  | lateIsThree (w : Int) (d : Nat)
  /-- `w * late_is_two_vars[d]` -/
  | lateIsTwo (w : Int) (d : Nat)
  /-- `w * late_is_four_plus_vars[d]` -/
  | lateIsFourPlus (w : Int) (d : Nat)
deriving DecidableEq

/-- A built constraint-satisfaction problem: the `model.Add` constraints in
source order and the objective terms (empty list = no `Maximize` call). -/
structure Model where
  constraints : List Constraint
  objective : List ObjTerm
deriving DecidableEq

/-- The parity-based target `8 if self.month % 2 == 0 else 9`. -/
def targetOffDays (month : Nat) : Int :=
  if month % 2 == 0 then 8 else 9

/-- `4 if relax_consecutive else 3` (line 123). -/
def max_consecutive (relax_consecutive : Bool) : Nat :=
  if relax_consecutive then 4 else 3

/-- Constraint contributed by one requested-off day (lines 144-147) and,
identically, by one paid-holiday day (lines 150-153): forced Off when the
1-based day is in range, nothing otherwise. -/
def offReqConstraint (numDays s day : Nat) : List Constraint :=
  if 1 ≤ day ∧ day ≤ numDays then [.forceVar s (day - 1) 3] else []

/-- Hard constraint contributed by one preferred-shift entry
(lines 158-163): only for an in-range day and a working-shift label. -/
def prefConstraint (numDays s : Nat) (e : Nat × String) : List Constraint :=
  if 1 ≤ e.1 ∧ e.1 ≤ numDays then
    match shiftIdx e.2 with
    | some t => [.forceVar s (e.1 - 1) t]
    | none => []
  else []

/-- Entry contributed to `objective_prefs` by one preferred-shift entry
(lines 192-196): the variable triple `(s, day-1, shift_idx)`. -/
def prefObjEntry (numDays s : Nat) (e : Nat × String) : List (Nat × Nat × Nat) :=
  if 1 ≤ e.1 ∧ e.1 ≤ numDays then
    match shiftIdx e.2 with
    | some t => [(s, e.1 - 1, t)]
    | none => []
  else []

/-- 制約1 (lines 76-78): one shift per staff per day. -/
def oneShiftBlock (sc : Sched) : List Constraint :=
  (List.range sc.num_staff).flatMap fun s =>
    (List.range sc.num_days).map fun d => Constraint.oneShift s d

/-- 制約2 (lines 85-95): per-day head counts.  The late upper bound is added
only when `late_count_max > 0`.  (The `is_three`/`is_two`/`is_four_plus`
indicator definitions of lines 97-113 constrain only auxiliary variables and
are represented in the objective, see `ObjTerm`.) -/
def headcountBlock (sc : Sched) : List Constraint :=
  (List.range sc.num_days).flatMap fun d =>
    [Constraint.earlyExact sc.num_staff d sc.early_count,
     Constraint.middleExact sc.num_staff d sc.middle_count,
     Constraint.lateAtLeast sc.num_staff d sc.late_count_min] ++
    (if 0 < sc.late_count_max then [Constraint.lateAtMost sc.num_staff d sc.late_count_max] else [])

/-- 制約3 (lines 116-120): nakaban-only staff never take Early or Late. -/
def nakabanBlock (sc : Sched) : List Constraint :=
  (List.range sc.num_staff).flatMap fun s =>
    if (sc.staff_info s).nakaban_only then
      (List.range sc.num_days).flatMap fun d =>
        [Constraint.zeroVar s d 0, Constraint.zeroVar s d 2]
    else []

/-- 制約4 (lines 122-126): at least one Off in each window of
`max_consecutive + 1` consecutive days. -/
def consecutiveBlock (sc : Sched) (relax_consecutive : Bool) : List Constraint :=
  (List.range sc.num_staff).flatMap fun s =>
    (List.range (sc.num_days - max_consecutive relax_consecutive)).map fun d =>
      Constraint.offWindow s d (max_consecutive relax_consecutive + 1)

/-- 制約5 (lines 129-132): no Early right after Late, unless relaxed. -/
def lateEarlyBlock (sc : Sched) (relax_late_early : Bool) : List Constraint :=
  if !relax_late_early then
    (List.range sc.num_staff).flatMap fun s =>
      (List.range (sc.num_days - 1)).map fun d => Constraint.lateEarly s d
  else []

/-- 制約6 (lines 134-139): pairwise newbie exclusivity per working shift. -/
def newbieBlock (sc : Sched) : List Constraint :=
  if 2 ≤ ((List.range sc.num_staff).filter fun s => (sc.staff_info s).is_newbie).length then
    (List.range sc.num_days).flatMap fun d =>
      ([0, 1, 2] : List Nat).map fun t =>
        Constraint.newbieAtMostOne d t
          ((List.range sc.num_staff).filter fun s => (sc.staff_info s).is_newbie)
  else []

/-- 制約7 (lines 141-163): requested days off, paid holidays, and — only when
preferences are not softened — the hard preferred-shift constraints. -/
def requestBlock (sc : Sched) (relax_preferences : Bool) : List Constraint :=
  (List.range sc.num_staff).flatMap fun s =>
    (sc.requests_off s).flatMap (offReqConstraint sc.num_days s) ++
    (sc.holidays s).flatMap (offReqConstraint sc.num_days s) ++
    (if !relax_preferences then (sc.preferred_shifts s).flatMap (prefConstraint sc.num_days s)
     else [])

/-- 制約8 (lines 165-170): each staff member's Off-day total equals the
parity target exactly. -/
def offTotalBlock (sc : Sched) : List Constraint :=
  (List.range sc.num_staff).map fun s =>
    Constraint.offTotal s sc.num_days (targetOffDays sc.month)

/-- 制約9 (lines 172-185): Early/Late balance within the adjusted tolerance
for every non-nakaban-only staff member. -/
def balanceBlock (sc : Sched) (relax_balance : Int) : List Constraint :=
  (List.range sc.num_staff).flatMap fun s =>
    if !(sc.staff_info s).nakaban_only then
      [Constraint.balanceEL s sc.num_days (sc.balance_tolerance + relax_balance),
       Constraint.balanceLE s sc.num_days (sc.balance_tolerance + relax_balance)]
    else []

/-- The `objective_prefs` list (lines 188-196): built from every in-range,
working-label preference entry — with no test of `relax_preferences`. -/
def objectivePrefs (sc : Sched) : List (Nat × Nat × Nat) :=
  (List.range sc.num_staff).flatMap fun s =>
    (sc.preferred_shifts s).flatMap (prefObjEntry sc.num_days s)

/-- The `objective_terms` list (lines 198-207): weight-10 preference terms,
then the +5 / −3 / −3 late-head-count tier terms for every day. -/
def objectiveTerms (sc : Sched) : List ObjTerm :=
  ((objectivePrefs sc).map fun p => ObjTerm.prefTerm 10 p.1 p.2.1 p.2.2) ++
  ((List.range sc.num_days).map fun d => ObjTerm.lateIsThree 5 d) ++
  ((List.range sc.num_days).map fun d => ObjTerm.lateIsTwo (-3) d) ++
  ((List.range sc.num_days).map fun d => ObjTerm.lateIsFourPlus (-3) d)

/-- The complete constraint model built by `create_schedule` for one
relaxation profile, with the constraint groups in source order. -/
def buildModel (sc : Sched) (relax_balance : Int)
    (relax_preferences relax_consecutive relax_late_early : Bool) : Model :=
  ⟨oneShiftBlock sc ++ headcountBlock sc ++ nakabanBlock sc ++
   consecutiveBlock sc relax_consecutive ++ lateEarlyBlock sc relax_late_early ++
   newbieBlock sc ++ requestBlock sc relax_preferences ++ offTotalBlock sc ++
   balanceBlock sc relax_balance,
   objectiveTerms sc⟩

/-- An assignment is feasible for a model when every constraint holds; this is
the contract of the external CP-SAT engine on OPTIMAL / FEASIBLE results. -/
def satisfies (x : Assignment) (m : Model) : Prop :=
  ∀ c ∈ m.constraints, c.holds x = true

instance (x : Assignment) (m : Model) : Decidable (satisfies x m) :=
  List.decidableBAll _ m.constraints

/-- `[v for t in range(4) if Value(shifts[(s,d,t)]) == 1][0]` — the first
shift index the solver set on `(s, d)` (lines 227-228, the `break` loop). -/
def pickShift (x : Assignment) (s d : Nat) : Option Nat :=
  (List.range 4).find? fun t => x s d t

/-- Result projection inner loop (lines 226-235): walk the days carrying the
per-staff Off counter `k`; Off emits `OFF{k}` and increments, a working shift
emits its display label, a day with no set variable emits nothing. -/
def projectRowAux (x : Assignment) (s : Nat) : List Nat → Nat → List String
  | [], _ => []
  | d :: ds, k =>
    match pickShift x s d with
    | none => projectRowAux x s ds k
    | some t =>
      if t == 3 then ("OFF" ++ toString k) :: projectRowAux x s ds (k + 1)
      else shiftsList.getD t "" :: projectRowAux x s ds k

/-- One staff member's projected row: days `0..numDays-1`, counter from 1
(`off_counters[s] = 1`, line 224). -/
def projectRow (x : Assignment) (s numDays : Nat) : List String :=
  projectRowAux x s (List.range numDays) 1

/-- The whole projected schedule (lines 219-236), staff in id order. -/
def project (sc : Sched) (x : Assignment) : List (List String) :=
  (List.range sc.num_staff).map fun s => projectRow x s sc.num_days

/-- One diagnostic finding dict of `_analyze_failure`
(`type`/`title`/`message`/`suggestion`/`priority`). -/
structure Finding where
  kind : String
  title : String
  message : String
  suggestion : String
  priority : Nat
deriving DecidableEq

/-- Exact value of a Python float expression, kept as an unreduced fraction
`num / den` (the float arithmetic in `_analyze_failure` is exact on these
small integer inputs, so an exact rational models it; the fraction is kept
unreduced so every operation is a plain integer computation). -/
structure PyFloat where
  num : Int
  den : Int
deriving DecidableEq

/-- The float expression `q * k` for an integer `k`. -/
def PyFloat.mulI (q : PyFloat) (k : Int) : PyFloat := ⟨q.num * k, q.den⟩

/-- The float expression `k - q` for an integer `k`. -/
def PyFloat.subFrom (k : Int) (q : PyFloat) : PyFloat := ⟨k * q.den - q.num, q.den⟩

/-- The comparison `q > k`, i.e. `k < q`, as exact rational comparison. -/
def PyFloat.ltI (k : Int) (q : PyFloat) : Bool :=
  if 0 < q.den then decide (k * q.den < q.num) else decide (q.num < k * q.den)

/-- Display of a float value in a message (Python's decimal float formatting
is presentational; the exact value is shown as a fraction). -/
def PyFloat.toStr (q : PyFloat) : String :=
  toString q.num ++ "/" ++ toString q.den

/-- Python float division `a / b` on integers: `ZeroDivisionError` (here
`none`) when the divisor is zero, otherwise the exact quotient. -/
def pydiv (a b : Int) : Option PyFloat :=
  if b = 0 then none else some ⟨a, b⟩

/-- `min_required = early_count + middle_count + late_count_min` (line 301). -/
def min_required (sc : Sched) : Int :=
  sc.early_count + sc.middle_count + sc.late_count_min

/-- `working_days = num_days - target_off_days` (line 304). -/
def working_days (sc : Sched) : Int :=
  (sc.num_days : Int) - targetOffDays sc.month

/-- `nakaban_only_count` (line 307). -/
def nakaban_only_count (sc : Sched) : Nat :=
  (List.range sc.num_staff).countP fun s => (sc.staff_info s).nakaban_only

/-- `newbie_count` (line 308). -/
def newbie_count (sc : Sched) : Nat :=
  (List.range sc.num_staff).countP fun s => (sc.staff_info s).is_newbie

/-- Check 1 (lines 312-320): absolute staff shortfall. -/
def r1Block (sc : Sched) : List Finding :=
  if (sc.num_staff : Int) < min_required sc then
    [⟨"critical", "❌ スタッフ数が絶対的に不足しています",
      "現在: " ++ toString sc.num_staff ++ "名 → 必要: 最低" ++ toString (min_required sc) ++
        "名（早番" ++ toString sc.early_count ++ "名 + 中番" ++ toString sc.middle_count ++
        "名 + 遅番" ++ toString sc.late_count_min ++ "名）",
      "✅ スタッフを" ++ toString (min_required sc - sc.num_staff) ++ "名以上追加してください", 1⟩]
  else []

/-- Check 2 (lines 323-331): too many nakaban-only staff. -/
def r2Block (sc : Sched) : List Finding :=
  if sc.middle_count < (nakaban_only_count sc : Int) then
    [⟨"critical", "❌ 中番専任スタッフが多すぎます",
      "中番専任: " ++ toString (nakaban_only_count sc) ++ "名 → 中番の必要人数: " ++
        toString sc.middle_count ++ "名\n余剰: " ++
        toString ((nakaban_only_count sc : Int) - sc.middle_count) ++ "名",
      "✅ 以下のいずれかを実行してください：\n  1. 中番専任を" ++
        toString ((nakaban_only_count sc : Int) - sc.middle_count) ++
        "名減らす（推奨）\n  2. 中番の必要人数を" ++ toString (nakaban_only_count sc) ++
        "名に増やす", 1⟩]
  else []

/-- Check 3 (lines 334-341): three or more newbies. -/
def r3Block (sc : Sched) : List Finding :=
  if 3 ≤ newbie_count sc then
    [⟨"warning", "⚠️ 新人が多すぎます",
      "新人: " ++ toString (newbie_count sc) ++ "名 / 全体: " ++ toString sc.num_staff ++
        "名\n新人同士は同一シフト勤務できないため、シフトが組みにくくなります。",
      "✅ 以下のいずれかを実行してください：\n  1. 新人を2名以下に減らす（推奨）\n  2. スタッフ数を" ++
        toString (sc.num_staff + 2) ++ "名以上に増やす", 2⟩]
  else []

/-- Check 4 entry list (lines 344-355): the formatted
`'{name}（{total}件 → {excess}件オーバー）'` string for each staff whose
`requests_off` count plus `preferred_shifts` count exceeds 2.  Note the
source does not add the `holidays` (paid-holiday) count here. -/
def staffExcessList (sc : Sched) : List String :=
  (List.range sc.num_staff).flatMap fun s =>
    if 2 < (sc.requests_off s).length + (sc.preferred_shifts s).length then
      [(sc.staff_info s).name ++ "（" ++
        toString ((sc.requests_off s).length + (sc.preferred_shifts s).length) ++ "件 → " ++
        toString ((sc.requests_off s).length + (sc.preferred_shifts s).length - 2) ++
        "件オーバー）"]
    else []

/-- The check-4 finding (lines 357-364). -/
def excessFinding (sc : Sched) : Finding :=
  ⟨"warning", "⚠️ 希望が多すぎるスタッフがいます",
   "希望休+希望シフトは合計2日までです。\n該当スタッフ: " ++
     toString (staffExcessList sc).length ++ "名\n・ " ++
     String.intercalate "\n・ " (staffExcessList sc),
   "✅ 各スタッフの希望を2件以内に減らしてください", 2⟩

/-- Check 4 (lines 344-364): emitted iff some staff has excess requests. -/
def r4Block (sc : Sched) : List Finding :=
  if staffExcessList sc ≠ [] then [excessFinding sc] else []

/-- Check 5 (lines 367-377): balance margin information. -/
def r5Block (sc : Sched) : List Finding :=
  if 0 < (sc.num_staff : Int) - (nakaban_only_count sc : Int) then
    if working_days sc < 10 then
      [⟨"info", "ℹ️ 早番・遅番バランス制約が厳しい可能性",
        "勤務日数: " ++ toString (working_days sc) ++ "日（1ヶ月" ++ toString sc.num_days ++
          "日 - 休日" ++ toString (targetOffDays sc.month) ++
          "日）\n早番と遅番を均等に振り分けるには、十分な勤務日数が必要です。",
        "✅ 休日を" ++ toString (targetOffDays sc.month - 1) ++ "日に減らすことを検討してください", 3⟩]
    else []
  else []

/-- `total_shifts_needed = working_days * min_daily_staff` (line 382). -/
def total_shifts_needed (sc : Sched) : Int :=
  working_days sc * min_required sc

/-- `total_shifts_available = num_staff * working_days` (line 383). -/
def total_shifts_available (sc : Sched) : Int :=
  (sc.num_staff : Int) * working_days sc

/-- Check 6 (lines 386-393): utilization above 85 %. -/
def r6Block (sc : Sched) (utilization_rate : PyFloat) : List Finding :=
  if PyFloat.ltI 85 utilization_rate then
    [⟨"warning", "⚠️ 制約の余裕が少なすぎます",
      "シフト充足率: " ++ utilization_rate.toStr ++ "%\n必要シフト数: " ++
        toString (total_shifts_needed sc) ++ "\n利用可能シフト数: " ++
        toString (total_shifts_available sc) ++ "\n余裕率: " ++
        (PyFloat.subFrom 100 utilization_rate).toStr ++ "%（推奨: 20%以上）",
      "✅ 以下のいずれかを実行してください：\n  1. スタッフを1-2名追加する（推奨）\n  2. 遅番の最小人数を" ++
        toString (sc.late_count_min - 1) ++ "名に減らす\n  3. 希望休・希望シフトを全体的に減らす", 2⟩]
  else []

/-- Check 7 (lines 396-403): the generic fallback finding. -/
def fallbackFinding (sc : Sched) : Finding :=
  ⟨"general", "⚠️ 制約条件が厳しすぎます",
   "以下の現状を確認してください：\n・ スタッフ数: " ++ toString sc.num_staff ++
     "名\n・ 必要人数: 早番" ++ toString sc.early_count ++ "名、中番" ++
     toString sc.middle_count ++ "名、遅番" ++ toString sc.late_count_min ++ "-" ++
     toString sc.late_count_max ++ "名\n・ 新人: " ++ toString (newbie_count sc) ++
     "名、中番専任: " ++ toString (nakaban_only_count sc) ++ "名\n・ 勤務日数: " ++
     toString (working_days sc) ++ "日、休日: " ++ toString (targetOffDays sc.month) ++ "日",
   "✅ 以下を試してください（優先順）：\n  1. スタッフを1-2名追加する\n  2. 希望休・希望シフトを減らす（各スタッフ2件以内）\n  3. 新人を2名以下に減らす\n  4. 中番専任を減らす\n  5. 遅番の最小人数を減らす", 3⟩

/-- Stable insertion of a finding into a list sorted ascending by priority:
the inserted element goes before the first element of equal or greater
priority, so folding from the right reproduces a stable ascending sort. -/
def insertFinding (f : Finding) : List Finding → List Finding
  | [] => [f]
  | g :: gs => if f.priority ≤ g.priority then f :: g :: gs else g :: insertFinding f gs

/-- `reasons.sort(key=lambda x: x.get('priority', 999))` (line 406): Python's
sort is a stable ascending sort, and a stable ascending insertion sort
produces the identical list. -/
def sortFindings (l : List Finding) : List Finding :=
  l.foldr insertFinding []

/-- `ShiftScheduler._analyze_failure` (lines 296-408).  Two expressions can
raise `ZeroDivisionError` — the unguarded
`avg_working_days_per_staff = (num_staff * working_days) / num_staff`
(line 380) and the guarded utilization division (line 384) — so the result is
an `Option`; `none` models the exception.  The final list is sorted
ascending by priority (line 406). -/
def analyze_failure (sc : Sched) : Option (List Finding) :=
  match pydiv ((sc.num_staff : Int) * working_days sc) (sc.num_staff : Int) with
  | none => none
  | some _ =>
    match (if 0 < total_shifts_available sc then
             (pydiv (total_shifts_needed sc) (total_shifts_available sc)).map
               fun q => q.mulI 100
           else some ⟨0, 1⟩) with
    | none => none
    | some utilization_rate =>
      let reasons := r1Block sc ++ r2Block sc ++ r3Block sc ++ r4Block sc ++
        r5Block sc ++ r6Block sc utilization_rate
      let reasons := if reasons.isEmpty then [fallbackFinding sc] else reasons
      some (sortFindings reasons)

/-- The external CP-SAT engine as a deterministic oracle: `some x` models an
OPTIMAL / FEASIBLE result with assignment `x`, `none` models
INFEASIBLE / UNKNOWN / timeout. -/
abbrev Engine := Model → Option Assignment

/-- Result of one `create_schedule` call: a projected schedule on success, or
the diagnoser's reasons on failure. -/
inductive SchedResult where
  | ok (schedule : List (List String))
  | failed (reasons : List Finding)
deriving DecidableEq

/-- `ShiftScheduler.create_schedule` (lines 45-240) for one relaxation
profile, parameterized by the engine oracle; `none` models an uncaught
exception (from `_analyze_failure`). -/
def create_schedule (engine : Engine) (sc : Sched) (relax_balance : Int)
    (relax_preferences relax_consecutive relax_late_early : Bool) : Option SchedResult :=
  match engine (buildModel sc relax_balance relax_preferences relax_consecutive relax_late_early) with
  | some x => some (SchedResult.ok (project sc x))
  | none => (analyze_failure sc).map SchedResult.failed

/-- One entry of the `relaxation_attempts` ladder (lines 249-267). -/
structure Attempt where
  relax_balance : Int
  relax_preferences : Bool
  relax_consecutive : Bool
  relax_late_early : Bool
  description : String
deriving DecidableEq

/-- The profile quadruple of an attempt, without its description. -/
def Attempt.profile (a : Attempt) : Int × Bool × Bool × Bool :=
  (a.relax_balance, a.relax_preferences, a.relax_consecutive, a.relax_late_early)

/-- The literal 16-entry relaxation ladder of
`create_schedule_with_relaxation` (lines 249-267), in source order. -/
def relaxation_attempts : List Attempt :=
  [⟨0, false, false, false, "通常モード（制約緩和なし）"⟩,
   ⟨1, false, false, false, "バランス+1日緩和"⟩,
   ⟨2, false, false, false, "バランス+2日緩和"⟩,
   ⟨0, true, false, false, "希望シフトをソフト制約化"⟩,
   ⟨1, true, false, false, "バランス+1日 + 希望シフトソフト化"⟩,
   ⟨2, true, false, false, "バランス+2日 + 希望シフトソフト化"⟩,
   ⟨0, false, true, false, "連続勤務を4日まで緩和"⟩,
   ⟨1, false, true, false, "バランス+1日 + 連続勤務緩和"⟩,
   ⟨2, true, true, false, "バランス+2日 + 希望ソフト + 連続緩和"⟩,
   ⟨0, false, false, true, "遅番→早番制約を緩和"⟩,
   ⟨1, true, false, true, "バランス+1日 + 希望ソフト + 遅番→早番緩和"⟩,
   ⟨2, true, true, false, "バランス+2日 + 希望ソフト + 連続緩和"⟩,
   ⟨3, true, true, false, "バランス+3日 + 希望ソフト + 連続緩和"⟩,
   ⟨2, true, true, true, "バランス+2日 + 希望ソフト + 連続緩和 + 遅番→早番緩和"⟩,
   ⟨3, true, true, true, "バランス+3日 + 希望ソフト + 連続緩和 + 遅番→早番緩和"⟩,
   ⟨4, true, true, true, "最大緩和（バランス+4日 + すべての制約緩和）"⟩]

/-- The `relaxation_info` dict built on success (lines 279-289). -/
structure RelaxInfo where
  applied : Bool
  description : String
  relax_balance : Int
  relax_preferences : Bool
  relax_consecutive : Bool
  relax_late_early : Bool
  adjusted_balance_tolerance : Int
deriving DecidableEq

/-- `relaxation_info` for a successful attempt: populated only when some
knob is loosened (line 280), `none` for the strictest profile. -/
def attemptInfo (sc : Sched) (a : Attempt) : Option RelaxInfo :=
  if decide (0 < a.relax_balance) || a.relax_preferences || a.relax_consecutive ||
      a.relax_late_early then
    some ⟨true, a.description, a.relax_balance, a.relax_preferences, a.relax_consecutive,
          a.relax_late_early, sc.balance_tolerance + a.relax_balance⟩
  else none

/-- Overall outcome of `create_schedule_with_relaxation`: success with
optional relaxation info, or total failure with diagnostics. -/
inductive RunResult where
  | ok (schedule : List (List String)) (info : Option RelaxInfo)
  | failed (reasons : List Finding)
deriving DecidableEq

/-- The attempt loop of `create_schedule_with_relaxation` (lines 269-294):
try each profile in order on a model built fresh from the original request;
stop at the first success; after the list is exhausted run the diagnoser.
`none` models an exception escaping the loop. -/
def relaxLoop (engine : Engine) (sc : Sched) : List Attempt → Option RunResult
  | [] => (analyze_failure sc).map RunResult.failed
  | a :: rest =>
    match create_schedule engine sc a.relax_balance a.relax_preferences a.relax_consecutive
        a.relax_late_early with
    | none => none
    | some (SchedResult.ok sch) => some (RunResult.ok sch (attemptInfo sc a))
    | some (SchedResult.failed _) => relaxLoop engine sc rest

/-- `ShiftScheduler.create_schedule_with_relaxation` (lines 242-294). -/
def create_schedule_with_relaxation (engine : Engine) (sc : Sched) : Option RunResult :=
  relaxLoop engine sc relaxation_attempts

/- Concrete data used by witnesses and counterexamples. -/

/-- A concrete feasible assignment for `baseSched`: every fourth day is 遅番,
all other days are OFF. -/
def xw : Assignment := fun _ d t => if d % 4 == 0 then t == 2 else t == 3

/-- A minimal request: one ordinary staff member, a 12-day odd month
(Off target 9), zero required head counts, balance tolerance 3. -/
def baseSched : Sched :=
  ⟨1, 2024, 1, (fun _ => ⟨"A", false, false⟩), (fun _ => []), (fun _ => []), (fun _ => []),
   0, 0, 0, 0, 3, 12⟩

/-- `baseSched` with an out-of-range requested day off (day 40 of 12). -/
def oorSched : Sched :=
  { baseSched with requests_off := fun _ => [40] }

/-- `baseSched` with one in-range preferred shift (day 1 → 早番). -/
def prefSched : Sched :=
  { baseSched with preferred_shifts := fun _ => [(1, "早番")] }

/-- `baseSched` with three requested days off (excess-requests case). -/
def excessSched : Sched :=
  { baseSched with requests_off := fun _ => [1, 2, 3] }

/-- `baseSched` with three paid holidays and no other requests. -/
def holidaySched : Sched :=
  { baseSched with holidays := fun _ => [1, 2, 3] }

/-- `baseSched` with zero staff. -/
def zeroStaffSched : Sched :=
  { baseSched with num_staff := 0 }

end ShiftSched

namespace ShiftSched

/- Helper lemmas about membership in the constraint blocks. -/

lemma shiftIdx_lt_three {st : String} {t : Nat} (h : shiftIdx st = some t) : t < 3 := by
  unfold shiftIdx at h
  split_ifs at h <;> simp_all <;> omega

lemma mem_offReqConstraint_iff {nd s day : Nat} {c : Constraint} :
    c ∈ offReqConstraint nd s day ↔
      (1 ≤ day ∧ day ≤ nd) ∧ c = Constraint.forceVar s (day - 1) 3 := by
  unfold offReqConstraint
  split_ifs with h <;> simp [h]

lemma mem_prefConstraint_iff {nd s : Nat} {e : Nat × String} {c : Constraint} :
    c ∈ prefConstraint nd s e ↔
      ∃ t, shiftIdx e.2 = some t ∧ (1 ≤ e.1 ∧ e.1 ≤ nd) ∧
        c = Constraint.forceVar s (e.1 - 1) t := by
  unfold prefConstraint
  split_ifs with h
  · cases hst : shiftIdx e.2 <;> simp [hst, h]
  · simp [h]

lemma mem_prefObjEntry_iff {nd s : Nat} {e : Nat × String} {p : Nat × Nat × Nat} :
    p ∈ prefObjEntry nd s e ↔
      ∃ t, shiftIdx e.2 = some t ∧ (1 ≤ e.1 ∧ e.1 ≤ nd) ∧ p = (s, e.1 - 1, t) := by
  unfold prefObjEntry
  split_ifs with h
  · cases hst : shiftIdx e.2 <;> simp [hst, h]
  · simp [h]

lemma mem_requestBlock_iff {sc : Sched} {rp : Bool} {c : Constraint} :
    c ∈ requestBlock sc rp ↔
      ∃ s, s < sc.num_staff ∧
        ((∃ day ∈ sc.requests_off s, (1 ≤ day ∧ day ≤ sc.num_days) ∧
            c = Constraint.forceVar s (day - 1) 3) ∨
         (∃ day ∈ sc.holidays s, (1 ≤ day ∧ day ≤ sc.num_days) ∧
            c = Constraint.forceVar s (day - 1) 3) ∨
         (rp = false ∧ ∃ e ∈ sc.preferred_shifts s, ∃ t, shiftIdx e.2 = some t ∧
            (1 ≤ e.1 ∧ e.1 ≤ sc.num_days) ∧ c = Constraint.forceVar s (e.1 - 1) t)) := by
  cases rp <;>
    simp [requestBlock, List.mem_flatMap, List.mem_append, List.mem_range,
      mem_offReqConstraint_iff, mem_prefConstraint_iff]

lemma constraints_buildModel (sc : Sched) (rb : Int) (rp rc rl : Bool) :
    (buildModel sc rb rp rc rl).constraints =
      oneShiftBlock sc ++ headcountBlock sc ++ nakabanBlock sc ++
      consecutiveBlock sc rc ++ lateEarlyBlock sc rl ++ newbieBlock sc ++
      requestBlock sc rp ++ offTotalBlock sc ++ balanceBlock sc rb := rfl

end ShiftSched

namespace ShiftSched

lemma offTotal_mem_buildModel (sc : Sched) (rb : Int) (rp rc rl : Bool) {s : Nat}
    (hs : s < sc.num_staff) :
    Constraint.offTotal s sc.num_days (targetOffDays sc.month) ∈
      (buildModel sc rb rp rc rl).constraints := by
  have h8 : Constraint.offTotal s sc.num_days (targetOffDays sc.month) ∈ offTotalBlock sc := by
    simp [offTotalBlock, List.mem_map, List.mem_range]
    exact hs
  rw [constraints_buildModel]
  simp only [List.mem_append]
  tauto

/-- C5: every model built by `create_schedule`, under every relaxation
profile, contains the hard constraint fixing each staff member's total Off
days to exactly 8 when the month is even and 9 when it is odd, independently
of `num_days`; consequently every assignment satisfying the model has that
exact Off-day total for every staff member. -/
theorem C5_theorem (sc : Sched) (rb : Int) (rp rc rl : Bool) (s : Nat)
    (hs : s < sc.num_staff) :
    Constraint.offTotal s sc.num_days (targetOffDays sc.month) ∈
      (buildModel sc rb rp rc rl).constraints ∧
    targetOffDays sc.month = (if sc.month % 2 = 0 then 8 else 9) ∧
    ∀ x, satisfies x (buildModel sc rb rp rc rl) →
      (dayCount x s sc.num_days 3 : Int) = targetOffDays sc.month := by
  refine ⟨offTotal_mem_buildModel sc rb rp rc rl hs, ?_, ?_⟩
  · simp [targetOffDays]
  · intro x hx
    have h := hx _ (offTotal_mem_buildModel sc rb rp rc rl hs)
    simpa [Constraint.holds] using h

/-- C5 witness: the concrete instance at `baseSched` (January, so target 9). -/
theorem C5_witness :
    Constraint.offTotal 0 12 9 ∈ (buildModel baseSched 0 false false false).constraints ∧
    ((9 : Int) = if (1 : Nat) % 2 = 0 then 8 else 9) ∧
    (dayCount xw 0 12 3 : Int) = 9 := by
  have h := C5_theorem baseSched 0 false false false 0 (by decide)
  exact ⟨h.1, h.2.1, h.2.2 xw (by decide)⟩

end ShiftSched

namespace ShiftSched

lemma lateAtLeast_mem_buildModel (sc : Sched) (rb : Int) (rp rc rl : Bool) {d : Nat}
    (hd : d < sc.num_days) :
    Constraint.lateAtLeast sc.num_staff d sc.late_count_min ∈
      (buildModel sc rb rp rc rl).constraints := by
  have h2 : Constraint.lateAtLeast sc.num_staff d sc.late_count_min ∈ headcountBlock sc := by
    simp only [headcountBlock, List.mem_flatMap, List.mem_range]
    exact ⟨d, hd, by simp⟩
  rw [constraints_buildModel]
  simp only [List.mem_append]
  tauto

lemma lateAtMost_mem_buildModel_iff (sc : Sched) (rb : Int) (rp rc rl : Bool) {d : Nat}
    (hd : d < sc.num_days) (c : Int) :
    Constraint.lateAtMost sc.num_staff d c ∈ (buildModel sc rb rp rc rl).constraints ↔
      0 < sc.late_count_max ∧ c = sc.late_count_max := by
  constructor
  · intro h
    rw [constraints_buildModel] at h
    simp only [List.mem_append] at h
    rcases h with ((((((((h | h) | h) | h) | h) | h) | h) | h) | h)
    · simp [oneShiftBlock] at h
    · simp only [headcountBlock, List.mem_flatMap, List.mem_range] at h
      obtain ⟨d', _, h⟩ := h
      simp only [List.mem_append, List.mem_cons, List.not_mem_nil] at h
      rcases h with (h | h | h | h) | h
      · simp at h
      · simp at h
      · simp at h
      · exact absurd h (by simp)
      · by_cases hmax : 0 < sc.late_count_max
        · simp only [hmax, if_pos, List.mem_singleton] at h
          obtain ⟨_, _, hc⟩ := Constraint.lateAtMost.inj h
          exact ⟨hmax, hc⟩
        · simp [hmax] at h
    · simp only [nakabanBlock, List.mem_flatMap, List.mem_range] at h
      obtain ⟨s', _, h⟩ := h
      split_ifs at h <;> simp_all
    · simp [consecutiveBlock] at h
    · unfold lateEarlyBlock at h
      split_ifs at h <;> simp_all
    · unfold newbieBlock at h
      split_ifs at h <;> simp_all
    · rw [mem_requestBlock_iff] at h
      obtain ⟨s', _, (⟨_, _, _, heq⟩ | ⟨_, _, _, heq⟩ | ⟨_, _, _, _, _, _, heq⟩)⟩ := h <;>
        simp_all
    · simp [offTotalBlock] at h
    · simp only [balanceBlock, List.mem_flatMap, List.mem_range] at h
      obtain ⟨s', _, h⟩ := h
      split_ifs at h <;> simp_all
  · rintro ⟨hmax, rfl⟩
    have h2 : Constraint.lateAtMost sc.num_staff d sc.late_count_max ∈ headcountBlock sc := by
      simp only [headcountBlock, List.mem_flatMap, List.mem_range]
      exact ⟨d, hd, by simp [hmax]⟩
    rw [constraints_buildModel]
    simp only [List.mem_append]
    tauto

/-- C6: every model constrains each day's Late head-count to at least
`late_count_min`, and contains an upper-bound constraint on the Late
head-count if and only if `late_count_max > 0` (so `late_count_max = 0`
imposes no upper bound); every satisfying assignment respects both bounds. -/
theorem C6_theorem (sc : Sched) (rb : Int) (rp rc rl : Bool) (d : Nat)
    (hd : d < sc.num_days) :
    Constraint.lateAtLeast sc.num_staff d sc.late_count_min ∈
      (buildModel sc rb rp rc rl).constraints ∧
    (∀ c : Int, Constraint.lateAtMost sc.num_staff d c ∈
      (buildModel sc rb rp rc rl).constraints ↔ 0 < sc.late_count_max ∧ c = sc.late_count_max) ∧
    ∀ x, satisfies x (buildModel sc rb rp rc rl) →
      sc.late_count_min ≤ (staffCount x sc.num_staff d 2 : Int) ∧
      (0 < sc.late_count_max → (staffCount x sc.num_staff d 2 : Int) ≤ sc.late_count_max) := by
  refine ⟨lateAtLeast_mem_buildModel sc rb rp rc rl hd,
    fun c => lateAtMost_mem_buildModel_iff sc rb rp rc rl hd c, ?_⟩
  intro x hx
  constructor
  · have h := hx _ (lateAtLeast_mem_buildModel sc rb rp rc rl hd)
    simpa [Constraint.holds] using h
  · intro hmax
    have hmem := (lateAtMost_mem_buildModel_iff sc rb rp rc rl hd sc.late_count_max).mpr
      ⟨hmax, rfl⟩
    have h := hx _ hmem
    simpa [Constraint.holds] using h

/-- C6 witness: concrete instance with `late_count_max = 5` on day 0. -/
theorem C6_witness :
    Constraint.lateAtLeast 1 0 0 ∈
      (buildModel { baseSched with late_count_max := 5 } 0 false false false).constraints ∧
    (Constraint.lateAtMost 1 0 5 ∈
      (buildModel { baseSched with late_count_max := 5 } 0 false false false).constraints ↔
      (0 : Int) < 5 ∧ (5 : Int) = 5) ∧
    (0 : Int) ≤ (staffCount xw 1 0 2 : Int) ∧
    (staffCount xw 1 0 2 : Int) ≤ 5 := by
  have h := C6_theorem { baseSched with late_count_max := 5 } 0 false false false 0 (by decide)
  have h3 := h.2.2 xw (by decide)
  exact ⟨h.1, h.2.1 5, h3.1, h3.2 (by decide)⟩

end ShiftSched

namespace ShiftSched

lemma offWindow_mem_buildModel (sc : Sched) (rb : Int) (rp rc rl : Bool) {s d : Nat}
    (hs : s < sc.num_staff) (hd : d + max_consecutive rc < sc.num_days) :
    Constraint.offWindow s d (max_consecutive rc + 1) ∈
      (buildModel sc rb rp rc rl).constraints := by
  have h4 : Constraint.offWindow s d (max_consecutive rc + 1) ∈ consecutiveBlock sc rc := by
    simp only [consecutiveBlock, List.mem_flatMap, List.mem_map, List.mem_range]
    exact ⟨s, hs, d, lt_tsub_iff_right.mpr hd, rfl⟩
  rw [constraints_buildModel]
  simp only [List.mem_append]
  tauto

/-- C7: for every staff member and every window of `max_consecutive + 1`
consecutive days lying inside the month (`max_consecutive` being 3 normally
and 4 when the consecutive limit is relaxed), the model contains the
constraint putting at least one Off day in the window; hence in every
satisfying assignment no staff member works `max_consecutive + 1` consecutive
days without an Off day. -/
theorem C7_theorem (sc : Sched) (rb : Int) (rp rc rl : Bool) (s d : Nat)
    (hs : s < sc.num_staff) (hd : d + max_consecutive rc < sc.num_days) :
    max_consecutive rc = (if rc then 4 else 3) ∧
    Constraint.offWindow s d (max_consecutive rc + 1) ∈
      (buildModel sc rb rp rc rl).constraints ∧
    ∀ x, satisfies x (buildModel sc rb rp rc rl) →
      ∃ i, i ≤ max_consecutive rc ∧ x s (d + i) 3 = true := by
  refine ⟨rfl, offWindow_mem_buildModel sc rb rp rc rl hs hd, ?_⟩
  intro x hx
  have h := hx _ (offWindow_mem_buildModel sc rb rp rc rl hs hd)
  simp only [Constraint.holds, decide_eq_true_eq] at h
  have hpos : 0 < (List.range (max_consecutive rc + 1)).countP (fun i => x s (d + i) 3) := h
  rw [List.countP_pos_iff] at hpos
  obtain ⟨i, hi, hxi⟩ := hpos
  rw [List.mem_range] at hi
  exact ⟨i, Nat.lt_succ_iff.mp hi, hxi⟩

/-- C7 witness: concrete window starting at day 0 of `baseSched`. -/
theorem C7_witness :
    (0 + max_consecutive false < 12) ∧
    Constraint.offWindow 0 0 (max_consecutive false + 1) ∈
      (buildModel baseSched 0 false false false).constraints ∧
    ∃ i, i ≤ max_consecutive false ∧ xw 0 (0 + i) 3 = true := by
  have h := C7_theorem baseSched 0 false false false 0 0 (by decide) (by decide)
  exact ⟨by decide, h.2.1, h.2.2 xw (by decide)⟩

end ShiftSched

namespace ShiftSched

lemma prefTerm_mem_objective (sc : Sched) {s day t : Nat} {st : String}
    (hs : s < sc.num_staff) (hidx : shiftIdx st = some t) (h1 : 1 ≤ day)
    (h2 : day ≤ sc.num_days) (hmem : (day, st) ∈ sc.preferred_shifts s) :
    ObjTerm.prefTerm 10 s (day - 1) t ∈ objectiveTerms sc := by
  have hp : ((s, day - 1, t) : Nat × Nat × Nat) ∈ objectivePrefs sc := by
    simp only [objectivePrefs, List.mem_flatMap, List.mem_range]
    exact ⟨s, hs, (day, st), hmem, mem_prefObjEntry_iff.mpr ⟨t, hidx, ⟨h1, h2⟩, rfl⟩⟩
  unfold objectiveTerms
  simp only [List.mem_append, List.mem_map]
  exact Or.inl (Or.inl (Or.inl ⟨(s, day - 1, t), hp, rfl⟩))

lemma forceVar_not_mem_of_soft (sc : Sched) (rb : Int) (rc rl : Bool) {s d t : Nat}
    (ht : t < 3) :
    Constraint.forceVar s d t ∉ (buildModel sc rb true rc rl).constraints := by
  intro h
  rw [constraints_buildModel] at h
  simp only [List.mem_append] at h
  rcases h with ((((((((h | h) | h) | h) | h) | h) | h) | h) | h)
  · simp [oneShiftBlock] at h
  · simp only [headcountBlock, List.mem_flatMap, List.mem_range] at h
    obtain ⟨d', _, h⟩ := h
    simp only [List.mem_append, List.mem_cons, List.not_mem_nil] at h
    rcases h with (h | h | h | h) | h
    · simp at h
    · simp at h
    · simp at h
    · exact h
    · split_ifs at h <;> simp_all
  · simp only [nakabanBlock, List.mem_flatMap, List.mem_range] at h
    obtain ⟨s', _, h⟩ := h
    split_ifs at h <;> simp_all
  · simp [consecutiveBlock] at h
  · unfold lateEarlyBlock at h
    split_ifs at h <;> simp_all
  · unfold newbieBlock at h
    split_ifs at h <;> simp_all
  · rw [mem_requestBlock_iff] at h
    obtain ⟨s', _, (⟨_, _, _, heq⟩ | ⟨_, _, _, heq⟩ | ⟨hrp, _⟩)⟩ := h
    · obtain ⟨_, _, ht3⟩ := Constraint.forceVar.inj heq.symm
      omega
    · obtain ⟨_, _, ht3⟩ := Constraint.forceVar.inj heq.symm
      omega
    · exact absurd hrp (by simp)
  · simp [offTotalBlock] at h
  · simp only [balanceBlock, List.mem_flatMap, List.mem_range] at h
    obtain ⟨s', _, h⟩ := h
    split_ifs at h <;> simp_all

/-- C1 counterexample: with `relax_preferences = False` the weight-10
objective term for the in-range preference entry of `prefSched` is still
present (together with its hard constraint), and the objective is in fact
identical to the one built with `relax_preferences = True` — refuting the
claim that the term is included only when preferences are softened. -/
theorem C1_counterexample :
    ObjTerm.prefTerm 10 0 0 0 ∈ (buildModel prefSched 0 false false false).objective ∧
    Constraint.forceVar 0 0 0 ∈ (buildModel prefSched 0 false false false).constraints ∧
    (buildModel prefSched 0 false false false).objective =
      (buildModel prefSched 0 true false false).objective := by
  decide

/-- C1 amended: for every in-range preference entry carrying a working-shift
label, the weight-10 objective term is present under every relaxation
profile — regardless of `relax_preferences` — while the corresponding hard
constraint is present if and only if `relax_preferences` is false. -/
theorem C1_amended_theorem (sc : Sched) (rb : Int) (rp rc rl : Bool) (s day t : Nat)
    (st : String) (hs : s < sc.num_staff) (hidx : shiftIdx st = some t) (h1 : 1 ≤ day)
    (h2 : day ≤ sc.num_days) (hmem : (day, st) ∈ sc.preferred_shifts s) :
    ObjTerm.prefTerm 10 s (day - 1) t ∈ (buildModel sc rb rp rc rl).objective ∧
    (Constraint.forceVar s (day - 1) t ∈ (buildModel sc rb rp rc rl).constraints ↔
      rp = false) := by
  refine ⟨prefTerm_mem_objective sc hs hidx h1 h2 hmem, ?_⟩
  cases rp
  · refine iff_of_true ?_ rfl
    have h7 : Constraint.forceVar s (day - 1) t ∈ requestBlock sc false :=
      mem_requestBlock_iff.mpr
        ⟨s, hs, Or.inr (Or.inr ⟨rfl, (day, st), hmem, t, hidx, ⟨h1, h2⟩, rfl⟩)⟩
    rw [constraints_buildModel]
    simp only [List.mem_append]
    tauto
  · exact iff_of_false
      (forceVar_not_mem_of_soft sc rb rc rl (shiftIdx_lt_three hidx)) (by simp)

/-- C1 witness: the amended statement instantiated at `prefSched` with
preferences softened. -/
theorem C1_witness :
    ObjTerm.prefTerm 10 0 0 0 ∈ (buildModel prefSched 0 true false false).objective ∧
    (Constraint.forceVar 0 0 0 ∈ (buildModel prefSched 0 true false false).constraints ↔
      true = false) := by
  exact C1_amended_theorem prefSched 0 true false false 0 1 0 "早番" (by decide) (by decide)
    (by decide) (by decide) (by decide)

end ShiftSched

namespace ShiftSched

lemma prefConstraint_eq_nil {nd s : Nat} {e : Nat × String} (he : shiftIdx e.2 = none) :
    prefConstraint nd s e = [] := by
  simp [prefConstraint, he]

lemma prefObjEntry_eq_nil {nd s : Nat} {e : Nat × String} (he : shiftIdx e.2 = none) :
    prefObjEntry nd s e = [] := by
  simp [prefObjEntry, he]

/-- C10: a preference entry whose shift label is not one of 早番/中番/遅番 is
silently dropped: it contributes no hard constraint and no objective entry,
and the model built from a preference dict containing it — under every
relaxation profile — equals the model built without it. -/
theorem C10_theorem (sc : Sched) (rb : Int) (rp rc rl : Bool) (s0 : Nat)
    (l1 l2 : List (Nat × String)) (e : Nat × String) (he : shiftIdx e.2 = none) :
    prefConstraint sc.num_days s0 e = [] ∧
    prefObjEntry sc.num_days s0 e = [] ∧
    buildModel { sc with preferred_shifts :=
        fun s => if s = s0 then l1 ++ e :: l2 else sc.preferred_shifts s } rb rp rc rl =
      buildModel { sc with preferred_shifts :=
        fun s => if s = s0 then l1 ++ l2 else sc.preferred_shifts s } rb rp rc rl := by
  refine ⟨prefConstraint_eq_nil he, prefObjEntry_eq_nil he, ?_⟩
  have hpc : ∀ s : Nat,
      (if s = s0 then l1 ++ e :: l2 else sc.preferred_shifts s).flatMap
          (prefConstraint sc.num_days s) =
        (if s = s0 then l1 ++ l2 else sc.preferred_shifts s).flatMap
          (prefConstraint sc.num_days s) := by
    intro s
    by_cases h : s = s0
    · subst h
      simp [List.flatMap_append, prefConstraint_eq_nil he]
    · simp [h]
  have hpo : ∀ s : Nat,
      (if s = s0 then l1 ++ e :: l2 else sc.preferred_shifts s).flatMap
          (prefObjEntry sc.num_days s) =
        (if s = s0 then l1 ++ l2 else sc.preferred_shifts s).flatMap
          (prefObjEntry sc.num_days s) := by
    intro s
    by_cases h : s = s0
    · subst h
      simp [List.flatMap_append, prefObjEntry_eq_nil he]
    · simp [h]
  have hreq : requestBlock { sc with preferred_shifts :=
      fun s => if s = s0 then l1 ++ e :: l2 else sc.preferred_shifts s } rp =
      requestBlock { sc with preferred_shifts :=
      fun s => if s = s0 then l1 ++ l2 else sc.preferred_shifts s } rp := by
    unfold requestBlock
    congr 1
    funext s
    cases rp <;> simp [hpc s]
  have hobj : objectiveTerms { sc with preferred_shifts :=
      fun s => if s = s0 then l1 ++ e :: l2 else sc.preferred_shifts s } =
      objectiveTerms { sc with preferred_shifts :=
      fun s => if s = s0 then l1 ++ l2 else sc.preferred_shifts s } := by
    have hprefs : objectivePrefs { sc with preferred_shifts :=
        fun s => if s = s0 then l1 ++ e :: l2 else sc.preferred_shifts s } =
        objectivePrefs { sc with preferred_shifts :=
        fun s => if s = s0 then l1 ++ l2 else sc.preferred_shifts s } := by
      unfold objectivePrefs
      congr 1
      funext s
      exact hpo s
    unfold objectiveTerms
    rw [hprefs]
  unfold buildModel
  rw [hreq, hobj]
  rfl

/-- C10 witness: the concrete entry `(1, "OFF")` (Off is not a valid
preference label) is dropped from `baseSched`'s model. -/
theorem C10_witness :
    prefConstraint 12 0 (1, "OFF") = [] ∧
    prefObjEntry 12 0 (1, "OFF") = [] ∧
    buildModel { baseSched with preferred_shifts :=
        fun s => if s = 0 then [] ++ (1, "OFF") :: [] else baseSched.preferred_shifts s }
        0 false false false =
      buildModel { baseSched with preferred_shifts :=
        fun s => if s = 0 then [] ++ [] else baseSched.preferred_shifts s }
        0 false false false := by
  exact C10_theorem baseSched 0 false false false 0 [] [] (1, "OFF") (by decide)

end ShiftSched

namespace ShiftSched

lemma offReqConstraint_eq_nil {nd s day : Nat} (hday : ¬(1 ≤ day ∧ day ≤ nd)) :
    offReqConstraint nd s day = [] := by
  simp [offReqConstraint, hday]

/-- C3 counterexample: `oorSched` carries the out-of-range requested-off day
40 (of a 12-day month), yet the request is not rejected: the strictest model
is satisfied by `xw` and the full relaxation pipeline returns a complete
schedule on the very first attempt. -/
theorem C3_counterexample :
    (¬(1 ≤ 40 ∧ 40 ≤ oorSched.num_days)) ∧
    40 ∈ oorSched.requests_off 0 ∧
    satisfies xw (buildModel oorSched 0 false false false) ∧
    create_schedule_with_relaxation (fun _ => some xw) oorSched =
      some (RunResult.ok [["遅番", "OFF1", "OFF2", "OFF3", "遅番", "OFF4", "OFF5", "OFF6",
        "遅番", "OFF7", "OFF8", "OFF9"]] none) := by
  refine ⟨by decide, by decide, by decide, by decide⟩

/-- C3 amended: a request day outside `1..num_days` — whether a requested day
off, a paid holiday, or a preference entry — is silently ignored by the model
builder: it contributes no constraint and no objective entry, and the model
built with it equals the model built without it, under every relaxation
profile; the request is not rejected. -/
theorem C3_amended_theorem (sc : Sched) (rb : Int) (rp rc rl : Bool) (s0 day : Nat)
    (st : String) (l1 l2 : List Nat) (hday : ¬(1 ≤ day ∧ day ≤ sc.num_days)) :
    offReqConstraint sc.num_days s0 day = [] ∧
    prefConstraint sc.num_days s0 (day, st) = [] ∧
    prefObjEntry sc.num_days s0 (day, st) = [] ∧
    buildModel { sc with requests_off :=
        fun s => if s = s0 then l1 ++ day :: l2 else sc.requests_off s } rb rp rc rl =
      buildModel { sc with requests_off :=
        fun s => if s = s0 then l1 ++ l2 else sc.requests_off s } rb rp rc rl := by
  refine ⟨offReqConstraint_eq_nil hday, by simp [prefConstraint, hday],
    by simp [prefObjEntry, hday], ?_⟩
  have hoc : ∀ s : Nat,
      (if s = s0 then l1 ++ day :: l2 else sc.requests_off s).flatMap
          (offReqConstraint sc.num_days s) =
        (if s = s0 then l1 ++ l2 else sc.requests_off s).flatMap
          (offReqConstraint sc.num_days s) := by
    intro s
    by_cases h : s = s0
    · subst h
      simp [List.flatMap_append, offReqConstraint_eq_nil hday]
    · simp [h]
  have hreq : requestBlock { sc with requests_off :=
      fun s => if s = s0 then l1 ++ day :: l2 else sc.requests_off s } rp =
      requestBlock { sc with requests_off :=
      fun s => if s = s0 then l1 ++ l2 else sc.requests_off s } rp := by
    unfold requestBlock
    congr 1
    funext s
    cases rp <;> simp [hoc s]
  unfold buildModel
  rw [hreq]
  rfl

/-- C3 witness: the amended statement at the concrete out-of-range day 40. -/
theorem C3_witness :
    offReqConstraint 12 0 40 = [] ∧
    prefConstraint 12 0 (40, "早番") = [] ∧
    prefObjEntry 12 0 (40, "早番") = [] ∧
    buildModel { baseSched with requests_off :=
        fun s => if s = 0 then [] ++ 40 :: [] else baseSched.requests_off s }
        0 false false false =
      buildModel { baseSched with requests_off :=
        fun s => if s = 0 then [] ++ [] else baseSched.requests_off s }
        0 false false false := by
  exact C3_amended_theorem baseSched 0 false false false 0 40 "早番" [] [] (by decide)

end ShiftSched

namespace ShiftSched

lemma projectRowAux_spec (x : Assignment) (s : Nat) (ds : List Nat) :
    ∀ k : Nat, (∀ d ∈ ds, (pickShift x s d).isSome) →
      (projectRowAux x s ds k).length = ds.length ∧
      ∀ i, i < ds.length →
        (pickShift x s (ds.getD i 0) = some 3 →
          (projectRowAux x s ds k).getD i "" =
            "OFF" ++ toString (k + (ds.take i).countP (fun d => pickShift x s d == some 3))) ∧
        (∀ t, t < 3 → pickShift x s (ds.getD i 0) = some t →
          (projectRowAux x s ds k).getD i "" = shiftsList.getD t "") := by
  induction ds with
  | nil =>
    intro k _
    simp [projectRowAux]
  | cons d ds ih =>
    intro k hall
    have hd : (pickShift x s d).isSome := hall d (List.mem_cons_self d ds)
    have hds : ∀ e ∈ ds, (pickShift x s e).isSome :=
      fun e he => hall e (List.mem_cons_of_mem d he)
    rcases hpick : pickShift x s d with _ | t
    · rw [hpick] at hd
      simp at hd
    · by_cases ht3 : t = 3
      · subst ht3
        have hrec := ih (k + 1) hds
        constructor
        · simp [projectRowAux, hpick, hrec.1]
        · intro i hi
          match i with
          | 0 =>
            refine ⟨fun _ => ?_, fun t' ht' hpick' => ?_⟩
            · simp [projectRowAux, hpick]
            · rw [List.getD_cons_zero, hpick] at hpick'
              have := Option.some.inj hpick'
              omega
          | j + 1 =>
            have hj : j < ds.length := by simpa using hi
            have hrec2 := hrec.2 j hj
            have hgoal : (projectRowAux x s (d :: ds) k).getD (j + 1) "" =
                (projectRowAux x s ds (k + 1)).getD j "" := by
              simp [projectRowAux, hpick]
            constructor
            · intro hoff
              rw [List.getD_cons_succ] at hoff
              have h1 := hrec2.1 hoff
              have hcnt : ((d :: ds).take (j + 1)).countP
                  (fun e => pickShift x s e == some 3) =
                  (ds.take j).countP (fun e => pickShift x s e == some 3) + 1 := by
                simp [List.take_succ_cons, List.countP_cons, hpick]
              have harith : k + 1 + (ds.take j).countP (fun e => pickShift x s e == some 3) =
                  k + ((ds.take j).countP (fun e => pickShift x s e == some 3) + 1) := by
                omega
              rw [hgoal, h1, hcnt, ← harith]
            · intro t' ht' hpick'
              rw [List.getD_cons_succ] at hpick'
              rw [hgoal]
              exact hrec2.2 t' ht' hpick'
      · have hbeq : (t == 3) = false := by
          simp [ht3]
        have hrec := ih k hds
        constructor
        · simp [projectRowAux, hpick, hbeq, hrec.1]
        · intro i hi
          match i with
          | 0 =>
            refine ⟨fun hoff => ?_, fun t' ht' hpick' => ?_⟩
            · rw [List.getD_cons_zero, hpick] at hoff
              exact absurd (Option.some.inj hoff) ht3
            · rw [List.getD_cons_zero, hpick] at hpick'
              obtain rfl := Option.some.inj hpick'
              simp [projectRowAux, hpick, hbeq]
          | j + 1 =>
            have hj : j < ds.length := by simpa using hi
            have hrec2 := hrec.2 j hj
            have hgoal : (projectRowAux x s (d :: ds) k).getD (j + 1) "" =
                (projectRowAux x s ds k).getD j "" := by
              simp [projectRowAux, hpick, hbeq]
            constructor
            · intro hoff
              rw [List.getD_cons_succ] at hoff
              have h1 := hrec2.1 hoff
              have hcnt : ((d :: ds).take (j + 1)).countP
                  (fun e => pickShift x s e == some 3) =
                  (ds.take j).countP (fun e => pickShift x s e == some 3) := by
                simp [List.take_succ_cons, List.countP_cons, hpick, ht3]
              rw [hgoal, h1, hcnt]
            · intro t' ht' hpick'
              rw [List.getD_cons_succ] at hpick'
              rw [hgoal]
              exact hrec2.2 t' ht' hpick'

lemma pickShift_isSome_of_satisfies (sc : Sched) (rb : Int) (rp rc rl : Bool)
    {x : Assignment} {s : Nat} (hs : s < sc.num_staff)
    (hx : satisfies x (buildModel sc rb rp rc rl)) :
    ∀ d, d < sc.num_days → (pickShift x s d).isSome := by
  intro d hd
  have hmem : Constraint.oneShift s d ∈ oneShiftBlock sc := by
    simp only [oneShiftBlock, List.mem_flatMap, List.mem_map, List.mem_range]
    exact ⟨s, hs, d, hd, rfl⟩
  have h1 : Constraint.oneShift s d ∈ (buildModel sc rb rp rc rl).constraints := by
    rw [constraints_buildModel]
    simp only [List.mem_append]
    tauto
  have h := hx _ h1
  simp only [Constraint.holds, beq_iff_eq] at h
  have hpos : 0 < (List.range 4).countP (fun t => x s d t) := by omega
  rw [List.countP_pos_iff] at hpos
  obtain ⟨t, htmem, hxt⟩ := hpos
  rw [pickShift, List.find?_isSome]
  exact ⟨t, htmem, hxt⟩

/-- C8: in the projected output of any assignment satisfying a built model,
each staff row has one label per day; an Off day's label is `OFF` followed by
one plus the number of that staff's earlier Off days (so the indices start at
1 and increase by exactly 1 across the staff member's Off days, independently
per staff), while a working day emits its display label with no counter. -/
theorem C8_theorem (sc : Sched) (rb : Int) (rp rc rl : Bool) (x : Assignment) (s : Nat)
    (hs : s < sc.num_staff) (hx : satisfies x (buildModel sc rb rp rc rl)) :
    (projectRow x s sc.num_days).length = sc.num_days ∧
    ∀ d, d < sc.num_days →
      (pickShift x s d = some 3 →
        (projectRow x s sc.num_days).getD d "" =
          "OFF" ++ toString (1 + (List.range d).countP (fun e => pickShift x s e == some 3))) ∧
      (∀ t, t < 3 → pickShift x s d = some t →
        (projectRow x s sc.num_days).getD d "" = shiftsList.getD t "") := by
  have hall : ∀ d ∈ List.range sc.num_days, (pickShift x s d).isSome := by
    intro d hd
    exact pickShift_isSome_of_satisfies sc rb rp rc rl hs hx d (List.mem_range.mp hd)
  have hspec := projectRowAux_spec x s (List.range sc.num_days) 1 hall
  rw [projectRow]
  refine ⟨by simpa using hspec.1, ?_⟩
  intro d hd
  have hlen : d < (List.range sc.num_days).length := by simpa using hd
  have hi := hspec.2 d hlen
  rw [List.getD_eq_getElem _ _ hlen, List.getElem_range, List.take_range] at hi
  rw [Nat.min_eq_left (le_of_lt hd)] at hi
  exact hi

/-- C8 witness: concrete instance at `baseSched` and the feasible `xw`;
day 1 is staff 0's first Off day and carries label `OFF1`. -/
theorem C8_witness :
    satisfies xw (buildModel baseSched 0 false false false) ∧
    (projectRow xw 0 12).length = 12 ∧
    (projectRow xw 0 12).getD 1 "" =
      "OFF" ++ toString (1 + (List.range 1).countP (fun e => pickShift xw 0 e == some 3)) := by
  have h := C8_theorem baseSched 0 false false false xw 0 (by decide) (by decide)
  exact ⟨by decide, h.1, (h.2 1 (by decide)).1 (by decide)⟩

end ShiftSched

namespace ShiftSched

lemma relaxLoop_all_fail (engine : Engine) (sc : Sched) :
    ∀ L : List Attempt,
      (∀ a ∈ L, engine (buildModel sc a.relax_balance a.relax_preferences a.relax_consecutive
        a.relax_late_early) = none) →
      relaxLoop engine sc L = (analyze_failure sc).map RunResult.failed := by
  intro L
  induction L with
  | nil => intro _; rfl
  | cons a rest ih =>
    intro h
    have ha := h a (List.mem_cons_self a rest)
    have hrest := fun b hb => h b (List.mem_cons_of_mem a hb)
    rw [relaxLoop]
    unfold create_schedule
    rw [ha]
    cases hA : analyze_failure sc with
    | none => simp [hA]
    | some r => simpa [hA] using ih hrest

lemma relaxLoop_first_success (engine : Engine) (sc : Sched)
    (hA : (analyze_failure sc).isSome) :
    ∀ (l1 : List Attempt) (a : Attempt) (l2 : List Attempt),
      (∀ b ∈ l1, engine (buildModel sc b.relax_balance b.relax_preferences b.relax_consecutive
        b.relax_late_early) = none) →
      ∀ x, engine (buildModel sc a.relax_balance a.relax_preferences a.relax_consecutive
        a.relax_late_early) = some x →
      relaxLoop engine sc (l1 ++ a :: l2) =
        some (RunResult.ok (project sc x) (attemptInfo sc a)) := by
  intro l1
  induction l1 with
  | nil =>
    intro a l2 _ x hx
    rw [List.nil_append, relaxLoop]
    unfold create_schedule
    rw [hx]
  | cons b l1 ih =>
    intro a l2 hfail x hx
    have hb := hfail b (List.mem_cons_self b l1)
    have hl1 := fun c hc => hfail c (List.mem_cons_of_mem b hc)
    obtain ⟨r, hr⟩ := Option.isSome_iff_exists.mp hA
    rw [List.cons_append, relaxLoop]
    unfold create_schedule
    rw [hb, hr]
    simpa using ih a l2 hl1 x hx

/-- C2: the relaxation controller owns the literal 16-profile ladder, in the
source order with the duplicate profile `(2, T, T, F)` at (1-based) positions
9 and 12; each attempt's model is built fresh from the original request by
`buildModel`; the loop stops at the first attempt the engine solves, and only
after all attempts fail does it return the diagnostics as total failure. -/
theorem C2_theorem :
    relaxation_attempts.map Attempt.profile =
      [(0, false, false, false), (1, false, false, false), (2, false, false, false),
       (0, true, false, false), (1, true, false, false), (2, true, false, false),
       (0, false, true, false), (1, false, true, false), (2, true, true, false),
       (0, false, false, true), (1, true, false, true), (2, true, true, false),
       (3, true, true, false), (2, true, true, true), (3, true, true, true),
       (4, true, true, true)] ∧
    relaxation_attempts.length = 16 ∧
    (relaxation_attempts.map Attempt.profile)[8]? = some (2, true, true, false) ∧
    (relaxation_attempts.map Attempt.profile)[11]? = some (2, true, true, false) ∧
    (∀ (engine : Engine) (sc : Sched) (l1 : List Attempt) (a : Attempt) (l2 : List Attempt),
      (analyze_failure sc).isSome →
      relaxation_attempts = l1 ++ a :: l2 →
      (∀ b ∈ l1, engine (buildModel sc b.relax_balance b.relax_preferences b.relax_consecutive
        b.relax_late_early) = none) →
      ∀ x, engine (buildModel sc a.relax_balance a.relax_preferences a.relax_consecutive
        a.relax_late_early) = some x →
      create_schedule_with_relaxation engine sc =
        some (RunResult.ok (project sc x) (attemptInfo sc a))) ∧
    (∀ (engine : Engine) (sc : Sched),
      (∀ a ∈ relaxation_attempts, engine (buildModel sc a.relax_balance a.relax_preferences
        a.relax_consecutive a.relax_late_early) = none) →
      create_schedule_with_relaxation engine sc =
        (analyze_failure sc).map RunResult.failed) := by
  refine ⟨by rfl, by rfl, by rfl, by rfl, ?_, ?_⟩
  · intro engine sc l1 a l2 hA hsplit hfail x hx
    rw [create_schedule_with_relaxation, hsplit]
    exact relaxLoop_first_success engine sc hA l1 a l2 hfail x hx
  · intro engine sc hfail
    rw [create_schedule_with_relaxation]
    exact relaxLoop_all_fail engine sc relaxation_attempts hfail

/-- C2 witness: with an engine that always solves, the run stops at the first
(strictest) profile with no relaxation info; with an engine that never
solves, the run returns the diagnostics of `baseSched`. -/
theorem C2_witness :
    create_schedule_with_relaxation (fun _ => some xw) baseSched =
      some (RunResult.ok (project baseSched xw)
        (attemptInfo baseSched ⟨0, false, false, false, "通常モード（制約緩和なし）"⟩)) ∧
    create_schedule_with_relaxation (fun _ => none) baseSched =
      (analyze_failure baseSched).map RunResult.failed := by
  constructor
  · exact C2_theorem.2.2.2.2.1 (fun _ => some xw) baseSched []
      ⟨0, false, false, false, "通常モード（制約緩和なし）"⟩ relaxation_attempts.tail
      (by decide) rfl (by simp) xw rfl
  · exact C2_theorem.2.2.2.2.2 (fun _ => none) baseSched (fun a _ => rfl)

end ShiftSched

namespace ShiftSched

/-- The sorted findings list produced on the non-raising path of
`_analyze_failure`, for a given utilization rate. -/
def sortedReasons (sc : Sched) (rate : PyFloat) : List Finding :=
  sortFindings
    (if (r1Block sc ++ r2Block sc ++ r3Block sc ++ r4Block sc ++ r5Block sc ++
        r6Block sc rate).isEmpty
     then [fallbackFinding sc]
     else r1Block sc ++ r2Block sc ++ r3Block sc ++ r4Block sc ++ r5Block sc ++
        r6Block sc rate)

lemma mem_insertFinding {f a : Finding} {l : List Finding} :
    a ∈ insertFinding f l ↔ a = f ∨ a ∈ l := by
  induction l with
  | nil => simp [insertFinding]
  | cons g gs ih =>
    rw [insertFinding]
    split_ifs
    · simp [ih]
    · simp [ih]
      tauto

lemma mem_sortFindings {a : Finding} {l : List Finding} :
    a ∈ sortFindings l ↔ a ∈ l := by
  induction l with
  | nil => simp [sortFindings]
  | cons g gs ih =>
    rw [sortFindings, List.foldr_cons, mem_insertFinding]
    rw [sortFindings] at ih
    simp [ih]

lemma analyze_failure_cases (sc : Sched) :
    analyze_failure sc = none ∨
      ∃ rate : PyFloat, analyze_failure sc = some (sortedReasons sc rate) := by
  unfold analyze_failure
  cases pydiv ((sc.num_staff : Int) * working_days sc) (sc.num_staff : Int) with
  | none => exact Or.inl rfl
  | some q =>
    cases (if 0 < total_shifts_available sc then
        (pydiv (total_shifts_needed sc) (total_shifts_available sc)).map
          fun q => q.mulI 100
      else some ⟨0, 1⟩) with
    | none => exact Or.inl rfl
    | some rate => exact Or.inr ⟨rate, rfl⟩

lemma title_of_mem_r1 {sc : Sched} {f : Finding} (hf : f ∈ r1Block sc) :
    f.title = "❌ スタッフ数が絶対的に不足しています" := by
  unfold r1Block at hf
  split_ifs at hf <;> simp_all

lemma title_of_mem_r2 {sc : Sched} {f : Finding} (hf : f ∈ r2Block sc) :
    f.title = "❌ 中番専任スタッフが多すぎます" := by
  unfold r2Block at hf
  split_ifs at hf <;> simp_all

lemma title_of_mem_r3 {sc : Sched} {f : Finding} (hf : f ∈ r3Block sc) :
    f.title = "⚠️ 新人が多すぎます" := by
  unfold r3Block at hf
  split_ifs at hf <;> simp_all

lemma title_of_mem_r5 {sc : Sched} {f : Finding} (hf : f ∈ r5Block sc) :
    f.title = "ℹ️ 早番・遅番バランス制約が厳しい可能性" := by
  unfold r5Block at hf
  split_ifs at hf <;> simp_all

lemma title_of_mem_r6 {sc : Sched} {rate : PyFloat} {f : Finding} (hf : f ∈ r6Block sc rate) :
    f.title = "⚠️ 制約の余裕が少なすぎます" := by
  unfold r6Block at hf
  split_ifs at hf <;> simp_all

lemma staffExcessList_ne_nil_iff {sc : Sched} :
    staffExcessList sc ≠ [] ↔
      ∃ s, s < sc.num_staff ∧
        2 < (sc.requests_off s).length + (sc.preferred_shifts s).length := by
  constructor
  · intro h
    obtain ⟨y, hy⟩ := List.exists_mem_of_ne_nil _ h
    simp only [staffExcessList, List.mem_flatMap, List.mem_range] at hy
    obtain ⟨s, hs, hy⟩ := hy
    by_cases hc : 2 < (sc.requests_off s).length + (sc.preferred_shifts s).length
    · exact ⟨s, hs, hc⟩
    · simp [hc] at hy
  · rintro ⟨s, hs, hc⟩ hnil
    have hmem : (sc.staff_info s).name ++ "（" ++
        toString ((sc.requests_off s).length + (sc.preferred_shifts s).length) ++ "件 → " ++
        toString ((sc.requests_off s).length + (sc.preferred_shifts s).length - 2) ++
        "件オーバー）" ∈ staffExcessList sc := by
      simp only [staffExcessList, List.mem_flatMap, List.mem_range]
      exact ⟨s, hs, by simp [hc]⟩
    rw [hnil] at hmem
    exact absurd hmem (List.not_mem_nil _)

lemma eq_excessFinding_of_mem_reasons {sc : Sched} {rate : PyFloat} {f : Finding}
    (hf : f ∈ r1Block sc ++ r2Block sc ++ r3Block sc ++ r4Block sc ++ r5Block sc ++
      r6Block sc rate)
    (ht : f.title = "⚠️ 希望が多すぎるスタッフがいます") : f = excessFinding sc := by
  simp only [List.mem_append] at hf
  rcases hf with ((((h | h) | h) | h) | h) | h
  · rw [title_of_mem_r1 h] at ht
    exact absurd ht (by decide)
  · rw [title_of_mem_r2 h] at ht
    exact absurd ht (by decide)
  · rw [title_of_mem_r3 h] at ht
    exact absurd ht (by decide)
  · unfold r4Block at h
    split_ifs at h <;> simp_all
  · rw [title_of_mem_r5 h] at ht
    exact absurd ht (by decide)
  · rw [title_of_mem_r6 h] at ht
    exact absurd ht (by decide)

lemma excess_cond_of_mem_reasons {sc : Sched} {rate : PyFloat} {f : Finding}
    (hf : f ∈ r1Block sc ++ r2Block sc ++ r3Block sc ++ r4Block sc ++ r5Block sc ++
      r6Block sc rate)
    (ht : f.title = "⚠️ 希望が多すぎるスタッフがいます") :
    ∃ s, s < sc.num_staff ∧
      2 < (sc.requests_off s).length + (sc.preferred_shifts s).length := by
  simp only [List.mem_append] at hf
  rcases hf with ((((h | h) | h) | h) | h) | h
  · rw [title_of_mem_r1 h] at ht
    exact absurd ht (by decide)
  · rw [title_of_mem_r2 h] at ht
    exact absurd ht (by decide)
  · rw [title_of_mem_r3 h] at ht
    exact absurd ht (by decide)
  · unfold r4Block at h
    split_ifs at h with hc
    · exact staffExcessList_ne_nil_iff.mp hc
    · simp at h
  · rw [title_of_mem_r5 h] at ht
    exact absurd ht (by decide)
  · rw [title_of_mem_r6 h] at ht
    exact absurd ht (by decide)

end ShiftSched

namespace ShiftSched

/-- C4 counterexample: the staff member of `holidaySched` has three paid
holidays (an OffRequest count of 3 under the spec's union reading, hence
total > 2), yet no excess-personal-requests warning is emitted — the source
counts only `requests_off` and `preferred_shifts`, not `holidays`. -/
theorem C4_counterexample :
    2 < (holidaySched.requests_off 0).length + (holidaySched.holidays 0).length +
      (holidaySched.preferred_shifts 0).length ∧
    ∃ l, analyze_failure holidaySched = some l ∧
      ∀ f ∈ l, f.title ≠ "⚠️ 希望が多すぎるスタッフがいます" := by
  refine ⟨by decide, (analyze_failure holidaySched).getD [], by decide, by decide⟩

/-- C4 amended: the diagnoser emits the priority-2 excess-requests warning
if and only if some staff member's requested-days-off count plus
preferred-shift count exceeds 2 — paid holidays are not counted — and the
warning's message lists each offending staff member by name together with
the overage `total - 2`. -/
theorem C4_amended_theorem (sc : Sched) (l : List Finding)
    (h : analyze_failure sc = some l) :
    ((∃ f ∈ l, f.title = "⚠️ 希望が多すぎるスタッフがいます") ↔
      ∃ s, s < sc.num_staff ∧
        2 < (sc.requests_off s).length + (sc.preferred_shifts s).length) ∧
    (∀ f ∈ l, f.title = "⚠️ 希望が多すぎるスタッフがいます" → f = excessFinding sc) ∧
    (excessFinding sc).kind = "warning" ∧
    (excessFinding sc).priority = 2 ∧
    (excessFinding sc).message = "希望休+希望シフトは合計2日までです。\n該当スタッフ: " ++
      toString (staffExcessList sc).length ++ "名\n・ " ++
      String.intercalate "\n・ " (staffExcessList sc) ∧
    (∀ s, s < sc.num_staff →
      2 < (sc.requests_off s).length + (sc.preferred_shifts s).length →
      (sc.staff_info s).name ++ "（" ++
        toString ((sc.requests_off s).length + (sc.preferred_shifts s).length) ++ "件 → " ++
        toString ((sc.requests_off s).length + (sc.preferred_shifts s).length - 2) ++
        "件オーバー）" ∈ staffExcessList sc) := by
  rcases analyze_failure_cases sc with hn | ⟨rate, hr⟩
  · rw [hn] at h
    exact absurd h (by simp)
  · rw [hr] at h
    obtain rfl := Option.some.inj h
    refine ⟨⟨?_, ?_⟩, ?_, rfl, rfl, rfl, ?_⟩
    · rintro ⟨f, hf, ht⟩
      rw [sortedReasons, mem_sortFindings] at hf
      by_cases hE : (r1Block sc ++ r2Block sc ++ r3Block sc ++ r4Block sc ++ r5Block sc ++
          r6Block sc rate).isEmpty = true
      · rw [if_pos hE] at hf
        simp only [List.mem_singleton] at hf
        subst hf
        simp [fallbackFinding] at ht
      · rw [if_neg hE] at hf
        exact excess_cond_of_mem_reasons hf ht
    · rintro ⟨s, hs, hc⟩
      have hne : staffExcessList sc ≠ [] := staffExcessList_ne_nil_iff.mpr ⟨s, hs, hc⟩
      have hr4 : r4Block sc = [excessFinding sc] := by
        rw [r4Block, if_pos hne]
      have hr4mem : excessFinding sc ∈ r4Block sc := by
        rw [hr4]
        exact List.mem_singleton_self _
      have hmem : excessFinding sc ∈ r1Block sc ++ r2Block sc ++ r3Block sc ++ r4Block sc ++
          r5Block sc ++ r6Block sc rate := by
        simp only [List.mem_append]
        tauto
      have hE : ¬(r1Block sc ++ r2Block sc ++ r3Block sc ++ r4Block sc ++ r5Block sc ++
          r6Block sc rate).isEmpty = true := by
        rw [List.isEmpty_iff]
        exact fun hnil => (List.ne_nil_of_mem hmem) hnil
      refine ⟨excessFinding sc, ?_, rfl⟩
      rw [sortedReasons, mem_sortFindings, if_neg hE]
      exact hmem
    · intro f hf ht
      rw [sortedReasons, mem_sortFindings] at hf
      by_cases hE : (r1Block sc ++ r2Block sc ++ r3Block sc ++ r4Block sc ++ r5Block sc ++
          r6Block sc rate).isEmpty = true
      · rw [if_pos hE] at hf
        simp only [List.mem_singleton] at hf
        subst hf
        simp [fallbackFinding] at ht
      · rw [if_neg hE] at hf
        exact eq_excessFinding_of_mem_reasons hf ht
    · intro s hs hc
      simp only [staffExcessList, List.mem_flatMap, List.mem_range]
      exact ⟨s, hs, by simp [hc]⟩

/-- C4 witness: `excessSched` (one staff member with three requested days
off) triggers the warning, obtained from the amended theorem. -/
theorem C4_witness :
    (∃ f ∈ (analyze_failure excessSched).getD [],
      f.title = "⚠️ 希望が多すぎるスタッフがいます") ∧
    (excessFinding excessSched).priority = 2 := by
  have h := C4_amended_theorem excessSched ((analyze_failure excessSched).getD []) (by decide)
  exact ⟨h.1.mpr ⟨0, by decide, by decide⟩, h.2.2.2.1⟩

end ShiftSched

namespace ShiftSched

/-- C9 counterexample: with zero staff, `_analyze_failure` hits the unguarded
division `(num_staff * working_days) / num_staff` of line 380 and raises
`ZeroDivisionError` (modelled as `none`) — it is not total for every input. -/
theorem C9_counterexample :
    zeroStaffSched.num_staff = 0 ∧ analyze_failure zeroStaffSched = none := by
  exact ⟨rfl, by decide⟩

/-- C9 amended: the utilization rate itself is guarded — it is produced by
division only when `total_shifts_available > 0` and is the exact value 0
otherwise — but `_analyze_failure` as a whole divides by zero exactly when
`num_staff = 0`, via the unguarded `avg_working_days_per_staff` expression of
line 380; for every positive staff count it never divides by zero. -/
theorem C9_amended_theorem (sc : Sched) :
    ((analyze_failure sc).isSome ↔ 0 < sc.num_staff) ∧
    (0 < sc.num_staff → ¬0 < total_shifts_available sc →
      analyze_failure sc = some (sortedReasons sc ⟨0, 1⟩)) := by
  constructor
  · constructor
    · intro h
      by_contra hns
      have hz : sc.num_staff = 0 := by omega
      have hnone : analyze_failure sc = none := by
        unfold analyze_failure
        rw [hz]
        simp [pydiv]
      rw [hnone] at h
      simp at h
    · intro hns
      have hd1 : ((sc.num_staff : Int)) ≠ 0 :=
        Int.natCast_ne_zero.mpr (Nat.pos_iff_ne_zero.mp hns)
      unfold analyze_failure
      simp only [pydiv, if_neg hd1]
      by_cases hav : 0 < total_shifts_available sc
      · have hd2 : total_shifts_available sc ≠ 0 := ne_of_gt hav
        simp [hav, if_neg hd2]
      · simp [hav]
  · intro hns hav
    have hd1 : ((sc.num_staff : Int)) ≠ 0 :=
      Int.natCast_ne_zero.mpr (Nat.pos_iff_ne_zero.mp hns)
    unfold analyze_failure
    simp only [pydiv, if_neg hd1, if_neg hav]
    rfl

/-- C9 witness: for the one-staff request the diagnoser is total. -/
theorem C9_witness : (analyze_failure baseSched).isSome := by
  exact (C9_amended_theorem baseSched).1.mpr (by decide)

end ShiftSched
